import Mathlib

/-!
Shallow embedding of NERSC/hms-hmcollector (package `river_collector`, the
Intel River collector parsers, and the collector main program's control flow),
with theorems checking the natural-language specification against the code.

Conventions used throughout the embedding:

* A Go `float64` field that was decoded from JSON is modelled by the decimal
  string that `strconv.FormatFloat(v, 'f', -1, 64)` renders it to.  Go's
  shortest round-trip formatting is the identity on decimal literals of at
  most 15 significant digits (every such literal parses to a `float64` whose
  shortest decimal representation is the literal itself), so for all inputs
  appearing below this representation is exact.
* `json.Unmarshal` of the raw payload bytes is abstracted as an
  `Option`-typed argument: `none` stands for a byte string on which
  `json.Unmarshal` fails, `some v` for bytes that decode to the struct `v`.
* Each call of `time.Now().Format(time.RFC3339)` inside a function becomes an
  explicit `String` argument of the embedded function, in source order.
* A Go runtime panic (out-of-range string slice) makes the embedded function
  return `none`; a normal return of the event slice is `some`.
* Strings are compared and sliced by character; every string literal in the
  source and in the scenarios is ASCII, where Go's byte indexing and
  character indexing coincide.
-/

namespace HMCollector

/-- Go `float64` modelled by its `strconv.FormatFloat(v, 'f', -1, 64)`
rendering (see the header comment). -/
abbrev GoFloat := String

/-- `strconv.FormatFloat(v, 'f', -1, 64)` on the representation above: the
identity (the representation *is* the formatted string). -/
def strconv.FormatFloat (v : GoFloat) : String := v

/-- `strconv.ParseUint(s, 10, 8)` from the Go standard library, returning
`(value, ok)`:  a string that is empty or contains a non-digit is a syntax
error and yields `(0, false)`; a decimal value above 255 is a range error and
yields the clamped maximum `(255, false)`; otherwise `(value, true)`. -/
def strconv.ParseUint8 (s : String) : Nat × Bool :=
  if s.data.isEmpty || !(s.data.all Char.isDigit) then (0, false)
  else
    let v := s.data.foldl (fun n c => n * 10 + (c.toNat - 48)) 0
    if 255 < v then (255, false) else (v, true)

/-- Go string slicing `s[low:len(s)]`: defined (the suffix from `low`) when
`low ≤ len(s)`, a runtime panic (`none`) when `low > len(s)`. -/
def goStringSliceFrom (s : String) (low : Nat) : Option String :=
  if low ≤ s.data.length then some (String.mk (s.data.drop low)) else none

/-- `hmcollector.CrayJSONPayload`, the sensor payload of a normalized event,
with the fields the Intel River parsers populate.  Go pointer fields
(`Index`, `ParentalIndex` of type `*uint8`) are modelled as `Option Nat`:
`none` is the nil pointer, `some n` a pointer to the byte value `n`.
Fields the parsers leave at their Go zero value appear as `""`/`none`. -/
structure CrayJSONPayload where
  Timestamp : String
  Location : String
  PhysicalContext : String
  DeviceSpecificContext : String
  Index : Option Nat
  ParentalIndex : Option Nat
  Value : String
  deriving DecidableEq, Repr

/-- `hmcollector.Sensors`, the OEM section of a normalized event. -/
structure Sensors where
  TelemetrySource : String
  Sensors : List CrayJSONPayload
  deriving DecidableEq, Repr

/-- `hmcollector.Event`, a normalized event, with the fields the parsers
populate (`MessageId`, `EventTimestamp`, `Oem`).  The Go `Oem` field is a
pointer always set by the parsers, so it is embedded directly. -/
structure Event where
  MessageId : String
  EventTimestamp : String
  Oem : Sensors
  deriving DecidableEq, Repr

/-- One entry of the Redfish `PowerControl` array as decoded into
`hmcollector.Power` (fields read by the parser). -/
structure PowerControl where
  Name : String
  MemberId : String
  PowerConsumedWatts : GoFloat
  deriving DecidableEq, Repr

/-- One entry of the Redfish `PowerSupplies` array (fields read by the
parser). -/
structure PowerSupply where
  MemberId : String
  LineInputVoltage : GoFloat
  deriving DecidableEq, Repr

/-- One entry of the Redfish `Voltages` array (fields read by the parser). -/
structure Voltage where
  Name : String
  ReadingVolts : GoFloat
  deriving DecidableEq, Repr

/-- `hmcollector.Power`, the decoded top-level power payload. -/
structure Power where
  PowerControl : List PowerControl
  PowerSupplies : List PowerSupply
  Voltages : List Voltage
  deriving DecidableEq, Repr

/-- One entry of the Redfish `Temperatures` array (fields read by the
parser). -/
structure Temperature where
  Name : String
  ReadingCelsius : GoFloat
  deriving DecidableEq, Repr

/-- `hmcollector.EnclosureThermal`, the decoded top-level thermal payload. -/
structure EnclosureThermal where
  Temperatures : List Temperature
  deriving DecidableEq, Repr

/-- Modelled from the spec: the message-kind tag of power events.  The
constant `PowerMessageID` lives in package `river_collector` outside the
provided sources; the spec calls the kind `power`. -/
def PowerMessageID : String := "power"

/-- Modelled from the spec: the message-kind tag of voltage events (spec
kind `voltage`; constant `VoltageMessageID` is outside the provided
sources). -/
def VoltageMessageID : String := "voltage"

/-- Modelled from the spec: the message-kind tag of temperature events (spec
kind `temperature`; constant `TemperatureMessageID` is outside the provided
sources). -/
def TemperatureMessageID : String := "temperature"

/-- The `PowerControl` loop of `IntelRiverCollector.ParseJSONPowerEvents`:
for each entry named "Server Power Control", a payload with physical context
`Chassis`, index the (error-ignored) `ParseUint` of `MemberId`, and the
formatted watts; other entries are passed over. -/
def powerControlSensors (location timestamp : String) :
    List PowerControl → List CrayJSONPayload
  | [] => []
  | pc :: rest =>
    if pc.Name = "Server Power Control" then
      ⟨timestamp, location, "Chassis", "",
        some (strconv.ParseUint8 pc.MemberId).1, none,
        strconv.FormatFloat pc.PowerConsumedWatts⟩ ::
          powerControlSensors location timestamp rest
    else powerControlSensors location timestamp rest

/-- The `PowerSupplies` loop of `ParseJSONPowerEvents`: one payload per
supply, physical context `PowerSupplyBay`, index the (error-ignored)
`ParseUint` of `MemberId`, value the formatted line input voltage. -/
def powerSupplySensors (location timestamp : String) :
    List PowerSupply → List CrayJSONPayload
  | [] => []
  | ps :: rest =>
    ⟨timestamp, location, "PowerSupplyBay", "",
      some (strconv.ParseUint8 ps.MemberId).1, none,
      strconv.FormatFloat ps.LineInputVoltage⟩ ::
        powerSupplySensors location timestamp rest

/-- The `Voltages` loop of `ParseJSONPowerEvents`: one payload per voltage
rail, physical context `SystemBoard`, device-specific context
`Voltage.Name[3:len(Voltage.Name)]` (a Go slice that panics when the name
has fewer than 3 characters, hence the `Option`), index an allocated but
never-assigned `new(uint8)` (present, 0), value the formatted volts. -/
def voltageSensors (location timestamp : String) :
    List Voltage → Option (List CrayJSONPayload)
  | [] => some []
  | v :: rest =>
    match goStringSliceFrom v.Name 3 with
    | none => none
    | some dsc =>
      match voltageSensors location timestamp rest with
      | none => none
      | some ps =>
        some (⟨timestamp, location, "SystemBoard", dsc, some 0, none,
          strconv.FormatFloat v.ReadingVolts⟩ :: ps)

/-- `IntelRiverCollector.ParseJSONPowerEvents` from the source.  Arguments:
the abstracted `json.Unmarshal` result, the location, then the two
`time.Now().Format(time.RFC3339)` reads in source order (`timestamp` at the
top of the function; `nowEventTS`, the separate read used only for the power
event's `EventTimestamp`).  On unmarshal failure the function returns with no
events; otherwise it always appends the `power` event and the `voltage` event
(even when their sensor lists are empty).  `none` is a runtime panic from the
voltage-name slice. -/
def IntelRiverCollector.ParseJSONPowerEvents (decoded : Option Power)
    (location timestamp nowEventTS : String) : Option (List Event) :=
  match decoded with
  | none => some []
  | some power =>
    let powerEvent : Event :=
      ⟨PowerMessageID, nowEventTS,
        ⟨"River", powerControlSensors location timestamp power.PowerControl⟩⟩
    match voltageSensors location timestamp power.Voltages with
    | none => none
    | some vs =>
      let voltageEvent : Event :=
        ⟨VoltageMessageID, timestamp,
          ⟨"River",
            powerSupplySensors location timestamp power.PowerSupplies ++ vs⟩⟩
      some [powerEvent, voltageEvent]

/-- The `Temperatures` loop of `ParseJSONThermalEvents`: one payload per
reading, physical context `Baseboard`, device-specific context the reading's
name, both `Index` and `ParentalIndex` allocated by `new(uint8)` and never
assigned (present, 0), value the formatted Celsius reading. -/
def temperatureSensors (location timestamp : String) :
    List Temperature → List CrayJSONPayload
  | [] => []
  | t :: rest =>
    ⟨timestamp, location, "Baseboard", t.Name, some 0, some 0,
      strconv.FormatFloat t.ReadingCelsius⟩ ::
        temperatureSensors location timestamp rest

/-- `IntelRiverCollector.ParseJSONThermalEvents` from the source: a single
`time.Now` read stamps both the event and its payloads; on unmarshal failure
no events are returned, otherwise exactly one `temperature` event is
appended (even when its sensor list is empty). -/
def IntelRiverCollector.ParseJSONThermalEvents (decoded : Option EnclosureThermal)
    (location timestamp : String) : List Event :=
  match decoded with
  | none => []
  | some thermal =>
    [⟨TemperatureMessageID, timestamp,
      ⟨"River", temperatureSensors location timestamp thermal.Temperatures⟩⟩]

/-- Modelled from the spec: the step that hands parsed events to the
publisher (the poller / ingress bodies are not among the provided sources).
Per the spec, "An empty event (no sensor payloads) must not be forwarded
downstream": events whose sensor list is empty are dropped before
publication. -/
def forwardToPublisher (events : List Event) : List Event :=
  events.filter (fun e => !e.Oem.Sensors.isEmpty)

/-- Erase the timestamp field of a sensor payload (for comparing parser
outputs modulo wall-clock reads). -/
def scrubPayload (p : CrayJSONPayload) : CrayJSONPayload :=
  { p with Timestamp := "" }

/-- Erase every timestamp field of an event: its `EventTimestamp` and the
`Timestamp` of each of its sensor payloads. -/
def scrubEvent (e : Event) : Event :=
  ⟨e.MessageId, "", ⟨e.Oem.TelemetrySource, e.Oem.Sensors.map scrubPayload⟩⟩

/-- `rf.RedfishEPDescription` as consumed by `doUpdateHSMEndpoints`: the
stable ID, the FQDN, the discovery status (`DiscInfo.LastStatus` flattened),
and the credentials. -/
structure RedfishEPDescription where
  ID : String
  FQDN : String
  LastStatus : String
  User : String
  Password : String
  deriving DecidableEq, Repr

/-- The `HSMEndpoints` map, modelled as an association list keyed by the
stable ID (entries are only ever added for keys not yet present). -/
abbrev Inventory := List (String × RedfishEPDescription)

/-- The body of the per-endpoint loop in `doUpdateHSMEndpoints`
(hmcollector.go lines 114–146): skip endpoints already known; skip (with a
warning) endpoints whose `LastStatus` is not `"DiscoverOK"`; when Vault is
enabled, fetch credentials (`vaultCreds`, modelled from the spec: the body of
`updateEndpointWithCredentials` is not among the provided sources; per the
spec it fetches `{username, password}` for the endpoint ID) and skip the
endpoint this tick on failure; otherwise insert the endpoint keyed by its
ID. -/
def processEndpoint (vaultEnabled : Bool)
    (vaultCreds : String → Option (String × String))
    (m : Inventory) (ep : RedfishEPDescription) : Inventory :=
  if (List.lookup ep.ID m).isSome then m
  else if ep.LastStatus ≠ "DiscoverOK" then m
  else if vaultEnabled then
    match vaultCreds ep.ID with
    | none => m
    | some up => (ep.ID, { ep with User := up.1, Password := up.2 }) :: m
  else (ep.ID, ep) :: m

/-- One tick of `doUpdateHSMEndpoints`: an empty (or failed) HSM response
only logs a warning; otherwise every returned endpoint is processed in
order. -/
def doUpdateHSMEndpointsTick (vaultEnabled : Bool)
    (vaultCreds : String → Option (String × String))
    (m : Inventory) (newEndpoints : List RedfishEPDescription) : Inventory :=
  if newEndpoints.isEmpty then m
  else newEndpoints.foldl (processEndpoint vaultEnabled vaultCreds) m

/-- A run of the endpoint-inventory loop: the ticks' HSM responses applied in
order, starting from the empty map `make(map[string]*rf.RedfishEPDescription)`. -/
def doUpdateHSMEndpointsRun (vaultEnabled : Bool)
    (vaultCreds : String → Option (String × String))
    (ticks : List (List RedfishEPDescription)) : Inventory :=
  ticks.foldl (doUpdateHSMEndpointsTick vaultEnabled vaultCreds) []

/-- The most recent discovery status HSM reported for `id` over a run: the
`LastStatus` of the last entry with that ID across the concatenated tick
responses. -/
def mostRecentStatus (ticks : List (List RedfishEPDescription))
    (id : String) : Option String :=
  (List.filter (fun ep => ep.ID = id) ticks.flatten).getLast?.map
    (fun ep => ep.LastStatus)

/-- Outcome of the startup Redfish-client construction in `main`. -/
inductive RFClientMode
  | validated
  | permissiveOnly
  | aborted
  deriving DecidableEq, Repr

/-- The retry loop of `main` (lines 282–293): try `createRFClient` up to
`fuel` times starting at attempt `ix` (`caAttempt i` is whether attempt `i`
succeeds); every failed attempt logs and then sleeps 2 seconds.  Returns
whether a client was built and the total seconds slept. -/
def rfClientAttempts (caAttempt : Nat → Bool) (ix : Nat) :
    Nat → Bool × Nat
  | 0 => (false, 0)
  | fuel + 1 =>
    if caAttempt ix then (true, 0)
    else
      let r := rfClientAttempts caAttempt (ix + 1) fuel
      (r.1, r.2 + 2)

/-- Startup client construction from `main` (lines 280–304): try the
CA-validated pair 10 times; on exhaustion log two persistent error lines,
clear the CA URI and build the permissive (TLS-verification-disabled) pair
(`permissiveOk` is whether that build succeeds); if even that fails, panic
(abort).  Returns the resulting mode, the seconds slept, and the error lines
logged on the failover path. -/
def mainRFClientStartup (caAttempt : Nat → Bool) (permissiveOk : Bool) :
    RFClientMode × Nat × List String :=
  let r := rfClientAttempts caAttempt 1 10
  if r.1 then (RFClientMode.validated, r.2, [])
  else if permissiveOk then
    (RFClientMode.permissiveOnly, r.2,
      ["Can't create secure HTTP client pair for Redfish, exhausted retries.",
       "   Making insecure client; Please check CA bundle URI for correctness."])
  else (RFClientMode.aborted, r.2, [])

/-- `hmcollector.KafkaBroker` as used by `main`'s shutdown block: the broker
address plus its producer, the latter abstracted by its `Flush` behaviour:
given a timeout in milliseconds, the number of messages still unflushed when
it returns. -/
structure KafkaBroker where
  BrokerAddress : String
  flushRemaining : Nat → Nat

/-- One log line of the shutdown block: the broker and the
`abandonedMessages` count reported for it. -/
structure FlushLogRecord where
  broker : String
  abandonedMessages : Nat
  deriving DecidableEq, Repr

/-- The deferred shutdown block of `main` (lines 413–425): for every
configured broker, call `KafkaProducer.Flush(15 * 1000)` and log the
returned count as `abandonedMessages`. -/
def shutdownFlush (brokers : List KafkaBroker) : List FlushLogRecord :=
  brokers.map (fun b => ⟨b.BrokerAddress, b.flushRemaining (15 * 1000)⟩)

/-- The decoded form of the S1 scenario payload from the spec. -/
def s1Power : Power :=
  ⟨[⟨"Server Power Control", "0", "312.5"⟩],
   [⟨"1", "208"⟩],
   [⟨"P12 VDD", "12.01"⟩]⟩

/-- The decoded form of the S3 scenario payload (all arrays empty). -/
def s3Power : Power := ⟨[], [], []⟩

/-- A concrete endpoint HSM reports with status `DiscoverOK`. -/
def epDiscoverOK : RedfishEPDescription :=
  ⟨"x3000c0s1b0", "x3000c0s1b0.local", "DiscoverOK", "root", "pw"⟩

/-- The same endpoint as later re-reported by HSM with a failed discovery
status. -/
def epDiscoverFailed : RedfishEPDescription :=
  ⟨"x3000c0s1b0", "x3000c0s1b0.local", "HTTPsGetFailed", "root", "pw"⟩

/-- A credential fetch that always fails (stands for a Vault outage). -/
def vaultAlwaysFails : String → Option (String × String) := fun _ => none

/-! ## Helper lemmas -/

/-- Every value `strconv.ParseUint(s, 10, 8)` returns fits in 0–255, whether
or not it also returns an error. -/
lemma ParseUint8_fst_le (s : String) : (strconv.ParseUint8 s).1 ≤ 255 := by
  unfold strconv.ParseUint8
  split
  · exact Nat.zero_le _
  · dsimp only
    split
    · exact Nat.le_refl _
    · omega

/-- The `PowerControl` loop keeps timestamps out of every other field:
mapping the timestamp away makes its output independent of the clock
read. -/
lemma scrub_powerControlSensors (loc t t' : String) (pcs : List PowerControl) :
    (powerControlSensors loc t pcs).map scrubPayload =
      (powerControlSensors loc t' pcs).map scrubPayload := by
  induction pcs with
  | nil => rfl
  | cons pc rest ih =>
    by_cases h : pc.Name = "Server Power Control"
    · simp [powerControlSensors, h, scrubPayload, ih]
    · simp [powerControlSensors, h, ih]

/-- Timestamp-erased output of the `PowerSupplies` loop is independent of the
clock read. -/
lemma scrub_powerSupplySensors (loc t t' : String) (pss : List PowerSupply) :
    (powerSupplySensors loc t pss).map scrubPayload =
      (powerSupplySensors loc t' pss).map scrubPayload := by
  induction pss with
  | nil => rfl
  | cons ps rest ih => simp [powerSupplySensors, scrubPayload, ih]

/-- Timestamp-erased output of the `Voltages` loop is independent of the
clock read (and panics for exactly the same inputs). -/
lemma scrub_voltageSensors (loc t t' : String) (vs : List Voltage) :
    Option.map (List.map scrubPayload) (voltageSensors loc t vs) =
      Option.map (List.map scrubPayload) (voltageSensors loc t' vs) := by
  induction vs with
  | nil => rfl
  | cons v rest ih =>
    simp only [voltageSensors]
    cases hs : goStringSliceFrom v.Name 3 with
    | none => rfl
    | some dsc =>
      cases h1 : voltageSensors loc t rest with
      | none =>
        cases h2 : voltageSensors loc t' rest with
        | none => rfl
        | some ps' => rw [h1, h2] at ih; simp at ih
      | some ps =>
        cases h2 : voltageSensors loc t' rest with
        | none => rw [h1, h2] at ih; simp at ih
        | some ps' =>
          rw [h1, h2] at ih
          simp only [Option.map_some', Option.some.injEq] at ih
          simp [scrubPayload, ih]

/-- Timestamp-erased output of the `Temperatures` loop is independent of the
clock read. -/
lemma scrub_temperatureSensors (loc t t' : String) (ts : List Temperature) :
    (temperatureSensors loc t ts).map scrubPayload =
      (temperatureSensors loc t' ts).map scrubPayload := by
  induction ts with
  | nil => rfl
  | cons x rest ih => simp [temperatureSensors, scrubPayload, ih]

/-- Every payload the `Temperatures` loop emits has both indices present and
zero. -/
lemma temperatureSensors_index (loc t : String) (ts : List Temperature) :
    ∀ p ∈ temperatureSensors loc t ts,
      p.Index = some 0 ∧ p.ParentalIndex = some 0 := by
  induction ts with
  | nil => intro p hp; simp [temperatureSensors] at hp
  | cons x rest ih =>
    intro p hp
    simp only [temperatureSensors, List.mem_cons] at hp
    rcases hp with hp | hp
    · subst hp; exact ⟨rfl, rfl⟩
    · exact ih p hp

/-- Every payload the `PowerControl` loop emits carries a present index in
0–255. -/
lemma powerControlSensors_index (loc t : String) (pcs : List PowerControl) :
    ∀ p ∈ powerControlSensors loc t pcs,
      ∃ n, p.Index = some n ∧ n ≤ 255 := by
  induction pcs with
  | nil => intro p hp; simp [powerControlSensors] at hp
  | cons pc rest ih =>
    intro p hp
    by_cases h : pc.Name = "Server Power Control"
    · simp only [powerControlSensors, h, if_pos, List.mem_cons] at hp
      rcases hp with hp | hp
      · subst hp
        exact ⟨(strconv.ParseUint8 pc.MemberId).1, rfl, ParseUint8_fst_le _⟩
      · exact ih p hp
    · simp only [powerControlSensors, h, if_false] at hp
      exact ih p hp

/-- Every payload the `PowerSupplies` loop emits carries a present index in
0–255. -/
lemma powerSupplySensors_index (loc t : String) (pss : List PowerSupply) :
    ∀ p ∈ powerSupplySensors loc t pss,
      ∃ n, p.Index = some n ∧ n ≤ 255 := by
  induction pss with
  | nil => intro p hp; simp [powerSupplySensors] at hp
  | cons ps rest ih =>
    intro p hp
    simp only [powerSupplySensors, List.mem_cons] at hp
    rcases hp with hp | hp
    · subst hp
      exact ⟨(strconv.ParseUint8 ps.MemberId).1, rfl, ParseUint8_fst_le _⟩
    · exact ih p hp

/-- The `PowerControl` loop emits exactly one payload per entry named
"Server Power Control", regardless of the entries' member identifiers. -/
lemma powerControlSensors_length (loc t : String) (pcs : List PowerControl) :
    (powerControlSensors loc t pcs).length =
      (List.filter (fun pc => pc.Name = "Server Power Control") pcs).length := by
  induction pcs with
  | nil => rfl
  | cons pc rest ih =>
    by_cases h : pc.Name = "Server Power Control"
    · simp [powerControlSensors, List.filter, h, ih]
    · simp [powerControlSensors, List.filter, h, ih]

/-- The `PowerSupplies` loop emits exactly one payload per supply, regardless
of the supplies' member identifiers. -/
lemma powerSupplySensors_length (loc t : String) (pss : List PowerSupply) :
    (powerSupplySensors loc t pss).length = pss.length := by
  induction pss with
  | nil => rfl
  | cons ps rest ih => simp [powerSupplySensors, ih]

/-- One endpoint-processing step preserves the property that every stored
endpoint was inserted with status `DiscoverOK`. -/
lemma processEndpoint_status (v : Bool)
    (c : String → Option (String × String)) (m : Inventory)
    (ep : RedfishEPDescription)
    (h : ∀ id e, List.lookup id m = some e → e.LastStatus = "DiscoverOK") :
    ∀ id e, List.lookup id (processEndpoint v c m ep) = some e →
      e.LastStatus = "DiscoverOK" := by
  intro id e he
  unfold processEndpoint at he
  split at he
  · exact h id e he
  · split at he
    · exact h id e he
    · rename_i hstat
      rw [not_ne_iff] at hstat
      split at he
      · split at he
        · exact h id e he
        · simp only [List.lookup] at he
          split at he
          · injection he with he'
            subst he'
            exact hstat
          · exact h id e he
      · simp only [List.lookup] at he
        split at he
        · injection he with he'
          subst he'
          exact hstat
        · exact h id e he

/-- Folding the per-endpoint step over an HSM response preserves the
insertion-status property. -/
lemma foldl_processEndpoint_status (v : Bool)
    (c : String → Option (String × String)) :
    ∀ (news : List RedfishEPDescription) (m : Inventory),
      (∀ id e, List.lookup id m = some e → e.LastStatus = "DiscoverOK") →
      ∀ id e, List.lookup id (news.foldl (processEndpoint v c) m) = some e →
        e.LastStatus = "DiscoverOK" := by
  intro news
  induction news with
  | nil => intro m h; exact h
  | cons ep rest ih =>
    intro m h
    exact ih (processEndpoint v c m ep) (processEndpoint_status v c m ep h)

/-- A whole tick preserves the insertion-status property. -/
lemma tick_status (v : Bool) (c : String → Option (String × String))
    (m : Inventory) (news : List RedfishEPDescription)
    (h : ∀ id e, List.lookup id m = some e → e.LastStatus = "DiscoverOK") :
    ∀ id e, List.lookup id (doUpdateHSMEndpointsTick v c m news) = some e →
      e.LastStatus = "DiscoverOK" := by
  unfold doUpdateHSMEndpointsTick
  split
  · exact h
  · exact foldl_processEndpoint_status v c news m h

/-- All-fail instance of the startup retry loop: when every attempt in the
window fails, the loop reports failure after sleeping 2 seconds per
attempt. -/
lemma rfClientAttempts_all_fail (caAttempt : Nat → Bool) :
    ∀ (fuel ix : Nat), (∀ i, ix ≤ i → i < ix + fuel → caAttempt i = false) →
      rfClientAttempts caAttempt ix fuel = (false, 2 * fuel) := by
  intro fuel
  induction fuel with
  | zero => intro ix _; rfl
  | succ n ih =>
    intro ix h
    have h0 : caAttempt ix = false := h ix (Nat.le_refl _) (by omega)
    have hrec := ih (ix + 1) (fun i h1 h2 => h i (by omega) (by omega))
    simp only [rfClientAttempts, h0, Bool.false_eq_true, if_false, hrec]
    rw [Nat.mul_succ]

/-! ## Claim theorems -/

/-- C1 (counterexample): on the S1 payload the power parser's voltage-rail
payload has device-specific context `" VDD"` — the Go slice
`"P12 VDD"[3:]` keeps the space — not `"2 VDD"` as the claim states, so the
claim's expected output is not the parser's output. -/
theorem c1_s1_rail_context_counterexample :
    IntelRiverCollector.ParseJSONPowerEvents (some s1Power) "x3000c0s1b0" "T" "T" =
      some
        [⟨PowerMessageID, "T",
          ⟨"River", [⟨"T", "x3000c0s1b0", "Chassis", "", some 0, none, "312.5"⟩]⟩⟩,
         ⟨VoltageMessageID, "T",
          ⟨"River",
            [⟨"T", "x3000c0s1b0", "PowerSupplyBay", "", some 1, none, "208"⟩,
             ⟨"T", "x3000c0s1b0", "SystemBoard", " VDD", some 0, none, "12.01"⟩]⟩⟩]
    ∧ (" VDD" : String) ≠ "2 VDD" := by
  exact ⟨by decide, by decide⟩

/-- C1 (amended): for the S1 payload and any location and clock reads, the
power parser returns exactly one power event with a single Chassis payload
(index 0, value "312.5") and one voltage event with the PowerSupplyBay
payload (index 1, value "208") and the SystemBoard rail payload whose
device-specific context is `" VDD"` (the name with its first three
characters stripped) and value "12.01"; every payload carries the supplied
location. -/
theorem c1_s1_power_parse (loc t1 t2 : String) :
    IntelRiverCollector.ParseJSONPowerEvents (some s1Power) loc t1 t2 =
      some
        [⟨PowerMessageID, t2,
          ⟨"River", [⟨t1, loc, "Chassis", "", some 0, none, "312.5"⟩]⟩⟩,
         ⟨VoltageMessageID, t1,
          ⟨"River",
            [⟨t1, loc, "PowerSupplyBay", "", some 1, none, "208"⟩,
             ⟨t1, loc, "SystemBoard", " VDD", some 0, none, "12.01"⟩]⟩⟩] := by
  rfl

/-- C2: the (spec-modelled) forwarding step never hands an event with an
empty sensor list to the publisher, and on the S3 payload (all arrays empty)
the power-parse path forwards zero events downstream — the parser returns
its two ever-present events with empty sensor lists and both are dropped. -/
theorem c2_no_empty_event_forwarded :
    (∀ (evs : List Event) (e : Event), e ∈ forwardToPublisher evs →
      e.Oem.Sensors ≠ [])
    ∧ (∀ loc t1 t2 : String,
        Option.map forwardToPublisher
          (IntelRiverCollector.ParseJSONPowerEvents (some s3Power) loc t1 t2) =
          some []) := by
  constructor
  · intro evs e he hnil
    unfold forwardToPublisher at he
    rw [List.mem_filter] at he
    rw [hnil] at he
    simp at he
  · intro loc t1 t2
    rfl

/-- Witness for C2 at concrete inputs: a one-sensor event survives the
forwarding filter and indeed has a nonempty sensor list. -/
theorem c2_no_empty_event_forwarded_witness :
    (⟨TemperatureMessageID, "T",
      ⟨"River", [⟨"T", "l", "Baseboard", "CPU1", some 0, some 0, "42"⟩]⟩⟩ :
        Event).Oem.Sensors ≠ [] :=
  c2_no_empty_event_forwarded.1
    [⟨TemperatureMessageID, "T",
      ⟨"River", [⟨"T", "l", "Baseboard", "CPU1", some 0, some 0, "42"⟩]⟩⟩]
    _ (by decide)

/-- C3 (counterexample): after a tick that inserts an endpoint with
`DiscoverOK` and a later tick in which HSM re-reports the same endpoint with
a failed status, the endpoint is still in the inventory (known endpoints are
skipped) although its most recent HSM-reported status is not `DiscoverOK` —
so the inventory does not only contain endpoints whose *most recent*
reported status was `DiscoverOK`. -/
theorem c3_most_recent_status_counterexample :
    List.lookup "x3000c0s1b0"
      (doUpdateHSMEndpointsRun false vaultAlwaysFails
        [[epDiscoverOK], [epDiscoverFailed]]) = some epDiscoverOK
    ∧ mostRecentStatus [[epDiscoverOK], [epDiscoverFailed]] "x3000c0s1b0" =
        some "HTTPsGetFailed"
    ∧ ("HTTPsGetFailed" : String) ≠ "DiscoverOK" := by
  exact ⟨by decide, by decide, by decide⟩

/-- C3 (amended): every endpoint in the inventory had status `DiscoverOK`
*at the time it was inserted* (stored records are never mutated afterwards);
each tick skips endpoints already known, skips endpoints whose reported
status is not `DiscoverOK`, and — when the secret store is enabled — skips
(for this tick) endpoints whose credential fetch fails. -/
theorem c3_inventory_status_invariant :
    (∀ (v : Bool) (c : String → Option (String × String))
        (ticks : List (List RedfishEPDescription)) (id : String)
        (ep : RedfishEPDescription),
      List.lookup id (doUpdateHSMEndpointsRun v c ticks) = some ep →
        ep.LastStatus = "DiscoverOK")
    ∧ (∀ (v : Bool) (c : String → Option (String × String)) (m : Inventory)
        (ep : RedfishEPDescription),
      (List.lookup ep.ID m).isSome = true → processEndpoint v c m ep = m)
    ∧ (∀ (v : Bool) (c : String → Option (String × String)) (m : Inventory)
        (ep : RedfishEPDescription),
      ¬ ep.LastStatus = "DiscoverOK" → processEndpoint v c m ep = m)
    ∧ (∀ (c : String → Option (String × String)) (m : Inventory)
        (ep : RedfishEPDescription),
      c ep.ID = none → processEndpoint true c m ep = m) := by
  refine ⟨?_, ?_, ?_, ?_⟩
  · intro v c ticks
    suffices h : ∀ (m : Inventory),
        (∀ id e, List.lookup id m = some e → e.LastStatus = "DiscoverOK") →
        ∀ id e, List.lookup id
            (ticks.foldl (doUpdateHSMEndpointsTick v c) m) = some e →
          e.LastStatus = "DiscoverOK" by
      intro id ep hep
      exact h [] (by intro id' e' h'; simp [List.lookup] at h') id ep hep
    induction ticks with
    | nil => intro m hm; exact hm
    | cons news rest ih =>
      intro m hm
      exact ih (doUpdateHSMEndpointsTick v c m news) (tick_status v c m news hm)
  · intro v c m ep h
    unfold processEndpoint
    rw [if_pos h]
  · intro v c m ep h
    unfold processEndpoint
    by_cases hk : (List.lookup ep.ID m).isSome = true
    · rw [if_pos hk]
    · rw [if_neg hk, if_pos h]
  · intro c m ep hc
    unfold processEndpoint
    split
    · rfl
    · split
      · rfl
      · rw [if_pos rfl, hc]

/-- Witness for C3 at concrete inputs: a stored endpoint has status
`DiscoverOK`; a known endpoint, a failed-status endpoint, and a
failed-credential endpoint are each skipped. -/
theorem c3_inventory_status_invariant_witness :
    epDiscoverOK.LastStatus = "DiscoverOK"
    ∧ processEndpoint false vaultAlwaysFails
        [("x3000c0s1b0", epDiscoverOK)] epDiscoverFailed =
        [("x3000c0s1b0", epDiscoverOK)]
    ∧ processEndpoint false vaultAlwaysFails [] epDiscoverFailed = []
    ∧ processEndpoint true vaultAlwaysFails [] epDiscoverOK = [] :=
  ⟨c3_inventory_status_invariant.1 false vaultAlwaysFails [[epDiscoverOK]]
      "x3000c0s1b0" epDiscoverOK (by decide),
   c3_inventory_status_invariant.2.1 false vaultAlwaysFails _ _ (by decide),
   c3_inventory_status_invariant.2.2.1 false vaultAlwaysFails _ _ (by decide),
   c3_inventory_status_invariant.2.2.2 vaultAlwaysFails _ _ rfl⟩

/-- C4: the power parser does not survive voltage names shorter than three
characters — the Go slice `Voltage.Name[3:len(Voltage.Name)]` panics (the
whole call faults and yields no events), contradicting the claim that the
payload is still emitted.  A three-character name is the shortest that
works, and then the device-specific context is indeed empty. -/
theorem c4_short_voltage_name_panics (loc t1 t2 : String) :
    IntelRiverCollector.ParseJSONPowerEvents
      (some ⟨[], [], [⟨"AB", "1"⟩]⟩) loc t1 t2 = none
    ∧ IntelRiverCollector.ParseJSONPowerEvents
        (some ⟨[], [], [⟨"P12", "1"⟩]⟩) loc t1 t2 =
        some
          [⟨PowerMessageID, t2, ⟨"River", []⟩⟩,
           ⟨VoltageMessageID, t1,
            ⟨"River", [⟨t1, loc, "SystemBoard", "", some 0, none, "1"⟩]⟩⟩] := by
  exact ⟨rfl, rfl⟩

/-- C5 (counterexample): a `PowerControl` entry named "Server Power Control"
whose `MemberId` "300" is outside 0–255 is *not* skipped — the parser
ignores the `ParseUint` range error and emits the payload with the clamped
index 255. -/
theorem c5_out_of_range_member_id_counterexample :
    IntelRiverCollector.ParseJSONPowerEvents
      (some ⟨[⟨"Server Power Control", "300", "5"⟩], [], []⟩) "loc" "T" "T" =
      some
        [⟨PowerMessageID, "T",
          ⟨"River", [⟨"T", "loc", "Chassis", "", some 255, none, "5"⟩]⟩⟩,
         ⟨VoltageMessageID, "T", ⟨"River", []⟩⟩] := by
  decide

/-- C5 (amended): the parser never skips an entry over its member
identifier: it ignores the `ParseUint` error and emits the payload anyway —
one payload per "Server Power Control" entry and one per power supply — with
index the value `ParseUint` returned (0 on a syntax error, the clamp 255 on
a range error), so every emitted index is present and in 0–255. -/
theorem c5_member_id_index_amended :
    (∀ (loc t : String) (pcs : List PowerControl) (p : CrayJSONPayload),
      p ∈ powerControlSensors loc t pcs → ∃ n, p.Index = some n ∧ n ≤ 255)
    ∧ (∀ (loc t : String) (pss : List PowerSupply) (p : CrayJSONPayload),
      p ∈ powerSupplySensors loc t pss → ∃ n, p.Index = some n ∧ n ≤ 255)
    ∧ (∀ (loc t : String) (pcs : List PowerControl),
      (powerControlSensors loc t pcs).length =
        (List.filter (fun pc => pc.Name = "Server Power Control") pcs).length)
    ∧ (∀ (loc t : String) (pss : List PowerSupply),
      (powerSupplySensors loc t pss).length = pss.length)
    ∧ strconv.ParseUint8 "300" = (255, false)
    ∧ strconv.ParseUint8 "abc" = (0, false) :=
  ⟨fun loc t pcs p hp => powerControlSensors_index loc t pcs p hp,
   fun loc t pss p hp => powerSupplySensors_index loc t pss p hp,
   fun loc t pcs => powerControlSensors_length loc t pcs,
   fun loc t pss => powerSupplySensors_length loc t pss,
   by decide, by decide⟩

/-- Witness for C5 at a concrete input: the payload emitted for an entry
with out-of-range `MemberId` "300" carries a present index within 0–255. -/
theorem c5_member_id_index_amended_witness :
    ∃ n, (⟨"t", "l", "Chassis", "", some 255, none, "5"⟩ :
      CrayJSONPayload).Index = some n ∧ n ≤ 255 :=
  c5_member_id_index_amended.1 "l" "t"
    [⟨"Server Power Control", "300", "5"⟩] _ (by decide)

/-- C6: when the top-level `json.Unmarshal` fails, both parsers return zero
events; and the zero-event return is the parse-failure signal the caller
observes — the functions have no separate error return, and a successful
decode always yields a nonzero number of events (exactly two from the power
parser, exactly one from the thermal parser), so an empty result occurs
precisely on a top-level parse failure. -/
theorem c6_unmarshal_failure_zero_events (loc t1 t2 t : String) :
    IntelRiverCollector.ParseJSONPowerEvents none loc t1 t2 = some []
    ∧ IntelRiverCollector.ParseJSONThermalEvents none loc t = []
    ∧ (∀ (p : Power) (evs : List Event),
        IntelRiverCollector.ParseJSONPowerEvents (some p) loc t1 t2 =
          some evs → evs.length = 2)
    ∧ (∀ th : EnclosureThermal,
        (IntelRiverCollector.ParseJSONThermalEvents (some th) loc t).length = 1) := by
  refine ⟨rfl, rfl, ?_, fun th => rfl⟩
  intro p evs h
  simp only [IntelRiverCollector.ParseJSONPowerEvents] at h
  cases hv : voltageSensors loc t1 p.Voltages with
  | none => rw [hv] at h; exact absurd h (by simp)
  | some vs =>
    rw [hv] at h
    injection h with h'
    rw [← h']
    rfl

/-- Witness for C6 at concrete inputs: an unmarshal failure yields zero
events, and the successful parse of the S3 payload yields two events. -/
theorem c6_unmarshal_failure_zero_events_witness :
    IntelRiverCollector.ParseJSONPowerEvents none "l" "a" "b" = some []
    ∧ (Option.getD
        (IntelRiverCollector.ParseJSONPowerEvents (some s3Power) "l" "a" "b")
        []).length = 2 :=
  ⟨(c6_unmarshal_failure_zero_events "l" "a" "b" "c").1,
   (c6_unmarshal_failure_zero_events "l" "a" "b" "c").2.2.1 s3Power _ (by decide)⟩

/-- C7 (counterexample): the parsers read the wall clock themselves — the Go
signatures carry no caller-supplied timestamp, and varying only the
`time.Now()` reads (the embedded time arguments) changes the output, here
the thermal event's `EventTimestamp` on an otherwise event-free payload; the
power parser even performs two separate reads, stamping the power event from
the second and everything else from the first. -/
theorem c7_clock_read_counterexample :
    IntelRiverCollector.ParseJSONThermalEvents (some ⟨[]⟩) "x3000c0s1b0"
        "2020-01-01T00:00:00Z" ≠
      IntelRiverCollector.ParseJSONThermalEvents (some ⟨[]⟩) "x3000c0s1b0"
        "2020-01-01T00:00:01Z"
    ∧ IntelRiverCollector.ParseJSONPowerEvents (some s3Power) "x3000c0s1b0"
        "T1" "T2" =
        some
          [⟨PowerMessageID, "T2", ⟨"River", []⟩⟩,
           ⟨VoltageMessageID, "T1", ⟨"River", []⟩⟩] := by
  exact ⟨by decide, by decide⟩

/-- C7 (amended): apart from the timestamp fields populated from the
parsers' own `time.Now()` reads, the output is a function of the decoded
payload and the location alone: erasing every timestamp field makes two
invocations on identical inputs yield identical events, whatever the clock
returned each time. -/
theorem c7_timestamp_erased_determinism :
    (∀ (decoded : Option Power) (loc t1 t2 t1' t2' : String),
      Option.map (List.map scrubEvent)
        (IntelRiverCollector.ParseJSONPowerEvents decoded loc t1 t2) =
      Option.map (List.map scrubEvent)
        (IntelRiverCollector.ParseJSONPowerEvents decoded loc t1' t2'))
    ∧ (∀ (decoded : Option EnclosureThermal) (loc t t' : String),
      List.map scrubEvent
        (IntelRiverCollector.ParseJSONThermalEvents decoded loc t) =
      List.map scrubEvent
        (IntelRiverCollector.ParseJSONThermalEvents decoded loc t')) := by
  constructor
  · intro decoded loc t1 t2 t1' t2'
    cases decoded with
    | none => rfl
    | some pw =>
      simp only [IntelRiverCollector.ParseJSONPowerEvents]
      have hvs := scrub_voltageSensors loc t1 t1' pw.Voltages
      cases hv1 : voltageSensors loc t1 pw.Voltages with
      | none =>
        cases hv2 : voltageSensors loc t1' pw.Voltages with
        | none => rfl
        | some vs' => rw [hv1, hv2] at hvs; simp at hvs
      | some vs =>
        cases hv2 : voltageSensors loc t1' pw.Voltages with
        | none => rw [hv1, hv2] at hvs; simp at hvs
        | some vs' =>
          rw [hv1, hv2] at hvs
          simp only [Option.map_some', Option.some.injEq] at hvs
          simp [scrubEvent, List.map_append,
            scrub_powerControlSensors loc t1 t1' pw.PowerControl,
            scrub_powerSupplySensors loc t1 t1' pw.PowerSupplies, hvs]
  · intro decoded loc t t'
    cases decoded with
    | none => rfl
    | some th =>
      simp [IntelRiverCollector.ParseJSONThermalEvents, scrubEvent,
        scrub_temperatureSensors loc t t' th.Temperatures]

/-- C8: when every one of the 10 CA-validated client attempts fails, startup
does not abort: it sleeps 2 seconds after each failed attempt (20 seconds
total), logs the two persistent error lines, and proceeds with the
permissive (TLS-verification-disabled) client only. -/
theorem c8_startup_failover_permissive (caAttempt : Nat → Bool)
    (h : ∀ i, 1 ≤ i → i ≤ 10 → caAttempt i = false) :
    mainRFClientStartup caAttempt true =
      (RFClientMode.permissiveOnly, 20,
        ["Can't create secure HTTP client pair for Redfish, exhausted retries.",
         "   Making insecure client; Please check CA bundle URI for correctness."]) := by
  have hall : rfClientAttempts caAttempt 1 10 = (false, 2 * 10) :=
    rfClientAttempts_all_fail caAttempt 10 1
      (fun i h1 h2 => h i h1 (by omega))
  unfold mainRFClientStartup
  rw [hall]
  rfl

/-- Witness for C8 at a concrete input: an always-failing CA attempt
function exercises the failover. -/
theorem c8_startup_failover_permissive_witness :
    mainRFClientStartup (fun _ => false) true =
      (RFClientMode.permissiveOnly, 20,
        ["Can't create secure HTTP client pair for Redfish, exhausted retries.",
         "   Making insecure client; Please check CA bundle URI for correctness."]) :=
  c8_startup_failover_permissive (fun _ => false) (fun _ _ _ => rfl)

/-- C9: the shutdown block flushes every configured broker's producer with
the 15-second (15 · 1000 ms) deadline and logs, for each broker in order,
the number of messages still unflushed as its abandoned count. -/
theorem c9_shutdown_flush_deadline (brokers : List KafkaBroker) :
    List.Forall₂
      (fun b r => r.broker = b.BrokerAddress ∧
        r.abandonedMessages = b.flushRemaining (15 * 1000))
      brokers (shutdownFlush brokers) := by
  induction brokers with
  | nil => exact List.Forall₂.nil
  | cons b rest ih => exact List.Forall₂.cons ⟨rfl, rfl⟩ ih

/-- C10: every sensor payload of the temperature event carries a present
`Index` and a present `ParentalIndex`, both 0 (`new(uint8)` allocations that
are never assigned), regardless of the payload contents. -/
theorem c10_thermal_indices_zero (th : EnclosureThermal) (loc t : String)
    (e : Event) (he : e ∈ IntelRiverCollector.ParseJSONThermalEvents (some th) loc t)
    (p : CrayJSONPayload) (hp : p ∈ e.Oem.Sensors) :
    p.Index = some 0 ∧ p.ParentalIndex = some 0 := by
  simp only [IntelRiverCollector.ParseJSONThermalEvents,
    List.mem_singleton] at he
  subst he
  exact temperatureSensors_index loc t th.Temperatures p hp

/-- Witness for C10 at a concrete input: the S2 scenario's single payload
has both indices present and zero. -/
theorem c10_thermal_indices_zero_witness :
    (⟨"T", "x3000c0s1b0", "Baseboard", "CPU1", some 0, some 0, "42"⟩ :
      CrayJSONPayload).Index = some 0
    ∧ (⟨"T", "x3000c0s1b0", "Baseboard", "CPU1", some 0, some 0, "42"⟩ :
      CrayJSONPayload).ParentalIndex = some 0 :=
  c10_thermal_indices_zero ⟨[⟨"CPU1", "42"⟩]⟩ "x3000c0s1b0" "T"
    ⟨TemperatureMessageID, "T",
      ⟨"River", [⟨"T", "x3000c0s1b0", "Baseboard", "CPU1", some 0, some 0, "42"⟩]⟩⟩
    (by decide) _ (by decide)

end HMCollector
